import Mathlib

/-!
Shallow embedding of the body-based routing filter from
`src/body_based_routing.rs` (repository `envoy-body-to-header`).

The filter's own code (`FilterConfig::new`, `Filter::on_request_headers`,
`Filter::on_request_body`) is translated directly.  The external library
calls it makes are modelled as follows:

* `std::str::from_utf8` is modelled by `utf8Decode` on byte lists
  (a byte is a `Nat`; any value outside `0..=255` is rejected).
* `serde_json::from_str::<serde_json::Value>` is modelled by `parseJson`,
  a fuel-driven recursive-descent parser for the JSON grammar accepted by
  serde_json: optional surrounding whitespace (space, tab, CR, LF), the
  literals `null`/`true`/`false`, numbers, strings with the eight simple
  escapes and `\uXXXX` escapes (surrogate pairs required, lone surrogates
  rejected), arrays and objects without trailing commas, raw control
  characters below 0x20 rejected inside strings, trailing garbage after
  the top-level value rejected, and serde_json's recursion limit of 128
  nested containers enforced through the `depth` argument.  Numbers are
  kept as their lexemes (`Json.num`), and serde_json's `NumberOutOfRange`
  rejection of literals that overflow an `f64` is modelled exactly by
  `numberAccepted`: the error can only arise from the single
  floating-point multiplication `(significand as f64) * POW10[exponent]`
  in `f64_from_parts` (negative exponents only divide), whose overflow
  is decided by comparing the exact integer product of the two rounded
  operands against the IEEE-754 double overflow threshold
  `2^1024 - 2^970`, so no floating-point arithmetic is needed.
* `serde_json::Value::get(key)` / `as_str()` are modelled by `jsonGet`,
  returning the last binding of the key (serde_json builds a map whose
  later duplicate keys overwrite earlier ones).
* `str::contains(needle)` is modelled by `containsSub` on character
  lists (for valid UTF-8 haystack and needle, byte-level containment
  coincides with character-level containment).
* the host (Envoy) callback sequence is modelled by `runRequest`: for a
  request without a body the filter only sees the header event with
  end-of-stream set; for a request whose body arrives in `n ≥ 1` chunks
  it sees the header event (end-of-stream false) and then `n` body
  events of which only the last has end-of-stream set, each receiving
  the chunks buffered so far (`get_request_body`).
-/

namespace BodyRouting

/-- JSON whitespace accepted by serde_json between tokens. -/
def jsonWs (c : Char) : Bool :=
  c = ' ' || c = '\t' || c = '\n' || c = '\r'

/-- Drop leading JSON whitespace. -/
def skipWs : List Char → List Char
  | [] => []
  | c :: rest => if jsonWs c then skipWs rest else c :: rest

/-- serde_json `Value`, with numbers kept as their source lexemes. -/
inductive Json where
  | null
  | bool (b : Bool)
  | num (lexeme : List Char)
  | str (s : List Char)
  | arr (elements : List Json)
  | obj (fields : List (List Char × Json))

/-- Value of a hexadecimal digit. -/
def hexVal (c : Char) : Option Nat :=
  if '0' ≤ c ∧ c ≤ '9' then some (c.toNat - '0'.toNat)
  else if 'a' ≤ c ∧ c ≤ 'f' then some (c.toNat - 'a'.toNat + 10)
  else if 'A' ≤ c ∧ c ≤ 'F' then some (c.toNat - 'A'.toNat + 10)
  else none

/-- Value of a four-digit hexadecimal escape. -/
def hex4 (a b c d : Char) : Option Nat :=
  match hexVal a, hexVal b, hexVal c, hexVal d with
  | some x, some y, some z, some w => some (((x * 16 + y) * 16 + z) * 16 + w)
  | _, _, _, _ => none

/-- The eight single-character string escapes of JSON. -/
def simpleEscape (c : Char) : Option Char :=
  if c = '"' then some '"'
  else if c = '\\' then some '\\'
  else if c = '/' then some '/'
  else if c = 'b' then some (Char.ofNat 8)
  else if c = 'f' then some (Char.ofNat 12)
  else if c = 'n' then some (Char.ofNat 10)
  else if c = 'r' then some (Char.ofNat 13)
  else if c = 't' then some (Char.ofNat 9)
  else none

/-- Parse the remainder of a JSON string (the opening quote already
consumed), returning its contents and the input after the closing quote.
Surrogate pairs in `\uXXXX` escapes are combined; lone surrogates and raw
control characters are rejected, as serde_json does. -/
def parseStringRest : List Char → Option (List Char × List Char)
  | [] => none
  | '"' :: rest => some ([], rest)
  | '\\' :: esc :: rest =>
    if esc = 'u' then
      match rest with
      | h1 :: h2 :: h3 :: h4 :: rest4 =>
        match hex4 h1 h2 h3 h4 with
        | none => none
        | some n =>
          if 0xD800 ≤ n ∧ n ≤ 0xDBFF then
            match rest4 with
            | '\\' :: 'u' :: g1 :: g2 :: g3 :: g4 :: rest8 =>
              match hex4 g1 g2 g3 g4 with
              | none => none
              | some m =>
                if 0xDC00 ≤ m ∧ m ≤ 0xDFFF then
                  (parseStringRest rest8).map fun p =>
                    (Char.ofNat (0x10000 + (n - 0xD800) * 0x400 + (m - 0xDC00)) :: p.1, p.2)
                else none
            | _ => none
          else if 0xDC00 ≤ n ∧ n ≤ 0xDFFF then none
          else
            (parseStringRest rest4).map fun p => (Char.ofNat n :: p.1, p.2)
      | _ => none
    else
      match simpleEscape esc with
      | some c => (parseStringRest rest).map fun p => (c :: p.1, p.2)
      | none => none
  | c :: rest =>
    if c.toNat < 0x20 then none
    else (parseStringRest rest).map fun p => (c :: p.1, p.2)

/-- Split off a maximal run of decimal digits. -/
def digitsSplit (s : List Char) : List Char × List Char :=
  (s.takeWhile Char.isDigit, s.dropWhile Char.isDigit)

/-- Integer part of a JSON number: `0`, or a nonzero digit followed by
digits (no leading zeros). -/
def parseIntPart : List Char → Option (List Char × List Char)
  | '0' :: rest => some (['0'], rest)
  | c :: rest =>
    if c.isDigit then
      some (c :: (digitsSplit rest).1, (digitsSplit rest).2)
    else none
  | [] => none

/-- Optional fraction part of a JSON number. -/
def parseFrac : List Char → Option (List Char × List Char)
  | '.' :: rest =>
    match rest with
    | c :: _ =>
      if c.isDigit then some ('.' :: (digitsSplit rest).1, (digitsSplit rest).2)
      else none
    | [] => none
  | s => some ([], s)

/-- Optional exponent part of a JSON number. -/
def parseExp : List Char → Option (List Char × List Char)
  | [] => some ([], [])
  | c :: rest =>
    if c = 'e' ∨ c = 'E' then
      match rest with
      | s :: rest2 =>
        if s = '+' ∨ s = '-' then
          match rest2 with
          | d :: _ =>
            if d.isDigit then some (c :: s :: (digitsSplit rest2).1, (digitsSplit rest2).2)
            else none
          | [] => none
        else if s.isDigit then some (c :: (digitsSplit rest).1, (digitsSplit rest).2)
        else none
      | [] => none
    else some ([], c :: rest)

/-- Digit values of a run of decimal digit characters. -/
def digitVals (l : List Char) : List Nat :=
  l.map fun c => c.toNat - '0'.toNat

/-- Digit values of a fraction part as produced by `parseFrac`
(leading dot followed by the digits, or empty when absent). -/
def fracDigitVals : List Char → List Nat
  | '.' :: ds => digitVals ds
  | _ => []

/-- Sign and digit values of an exponent part as produced by `parseExp`
(`e`/`E`, an optional sign, then the digits, or empty when absent). -/
def expPartOf : List Char → Option (Bool × List Nat)
  | [] => none
  | _ :: '+' :: ds => some (true, digitVals ds)
  | _ :: '-' :: ds => some (false, digitVals ds)
  | _ :: ds => some (true, digitVals ds)

/-- `u64::MAX`. -/
def u64Max : Nat := 2 ^ 64 - 1

/-- serde_json's significand accumulation (`parse_integer`): consume
digits into a `u64` until the next digit would overflow it; the digits
not consumed are left over for `parse_long_integer`, which counts them
into the decimal exponent. -/
def accumSig : Nat → List Nat → Nat × List Nat
  | s, [] => (s, [])
  | s, d :: rest =>
    if s * 10 + d > u64Max then (s, d :: rest) else accumSig (s * 10 + d) rest

/-- serde_json's `parse_decimal` loop: consume fraction digits into the
significand, decrementing the decimal exponent for each, until the next
digit would overflow the `u64`; the remaining fraction digits are then
discarded without exponent adjustment. -/
def accumFrac : Nat → Int → List Nat → Nat × Int
  | s, e, [] => (s, e)
  | s, e, d :: rest =>
    if s * 10 + d > u64Max then (s, e) else accumFrac (s * 10 + d) (e - 1) rest

/-- serde_json's exponent-digit accumulation into an `i32` in
`parse_exponent`; `none` when a digit would overflow `i32::MAX`. -/
def accumExp : Nat → List Nat → Option Nat
  | e, [] => some e
  | e, d :: rest =>
    if e * 10 + d > 2 ^ 31 - 1 then none else accumExp (e * 10 + d) rest

/-- `i32` saturation, modelling `saturating_add` / `saturating_sub` on
the combined exponent in `parse_exponent`. -/
def satI32 (x : Int) : Int :=
  max (-(2 ^ 31)) (min (2 ^ 31 - 1) x)

/-- Bit length of a natural number (fuel-driven so that it reduces in
the kernel; the fuel covers every value arising here, all below
`2 ^ 1100`). -/
def bitLenAux : Nat → Nat → Nat
  | 0, _ => 0
  | fuel + 1, n => if n = 0 then 0 else bitLenAux fuel (n / 2) + 1

/-- Bit length of a natural number. -/
def bitLen (n : Nat) : Nat := bitLenAux 1100 n

/-- The value of the IEEE-754 double nearest to `n` (round to nearest,
ties to even) as a natural number: this models Rust's `u64 as f64`
conversion of the significand and the `POW10` table entries
`1e0 .. 1e308`, all of which round to integer values (for `n ≥ 2^53`
the double's unit in the last place is an even power of two, and
`n < 2^1024` keeps everything finite). -/
def roundF64Int (n : Nat) : Nat :=
  if n < 2 ^ 53 then n
  else
    if (n % 2 ^ (bitLen n - 53)) * 2 > 2 ^ (bitLen n - 53) ∨
        ((n % 2 ^ (bitLen n - 53)) * 2 = 2 ^ (bitLen n - 53) ∧
          (n / 2 ^ (bitLen n - 53)) % 2 = 1) then
      (n / 2 ^ (bitLen n - 53) + 1) * 2 ^ (bitLen n - 53)
    else (n / 2 ^ (bitLen n - 53)) * 2 ^ (bitLen n - 53)

/-- Whether serde_json's `f64_from_parts(significand, exponent)`
succeeds.  A negative exponent only ever divides (or multiplies by
`1e-308`, which can only shrink towards zero), so it never overflows;
an exponent in `0 ..= 308` performs the single multiplication
`(significand as f64) * POW10[exponent]` and fails with
`NumberOutOfRange` exactly when that product's rounded value is
infinite, i.e. when the exact product reaches the IEEE-754 double
overflow threshold `2^1024 - 2^970`; an exponent above `308` misses the
`POW10` table and fails unless the significand is zero. -/
def f64PartsAccept (s : Nat) (e : Int) : Bool :=
  if e < 0 then true
  else if e ≤ 308 then
    if roundF64Int s * roundF64Int (10 ^ e.toNat) < 2 ^ 1024 - 2 ^ 970 then true
    else false
  else if s = 0 then true else false

/-- Whether serde_json accepts a number literal with the given integer
digits, fraction digits and exponent part (sign, digits): the
composition of `parse_integer`, `parse_long_integer`, `parse_decimal`,
`parse_exponent` and `f64_from_parts`.  Integers that fit in a `u64`
without fraction or exponent never reach a failing path (the pipeline
below then checks a zero exponent, which always passes), and the sign
of the number itself is checked only after the range check, so it is
irrelevant here.  When the exponent digits overflow the `i32`,
`parse_exponent_overflow` fails exactly for a nonzero significand with
a positive exponent sign. -/
def numberAccepted (intDs fracDs : List Nat) (expPart : Option (Bool × List Nat)) : Bool :=
  let sr := accumSig 0 intDs
  let se := accumFrac sr.1 (Int.ofNat sr.2.length) fracDs
  match expPart with
  | none => f64PartsAccept se.1 se.2
  | some pe =>
    match accumExp 0 pe.2 with
    | none => if se.1 = 0 ∨ pe.1 = false then true else false
    | some ex =>
      f64PartsAccept se.1
        (if pe.1 then satI32 (se.2 + Int.ofNat ex) else satI32 (se.2 - Int.ofNat ex))

/-- Parse a JSON number, keeping its lexeme; serde_json's
`NumberOutOfRange` rejection of literals overflowing an `f64` is
applied through `numberAccepted`. -/
def parseNumber (s : List Char) : Option (Json × List Char) :=
  match s with
  | '-' :: rest =>
    match parseIntPart rest with
    | none => none
    | some (ip, r1) =>
      match parseFrac r1 with
      | none => none
      | some (fp, r2) =>
        match parseExp r2 with
        | none => none
        | some (ep, r3) =>
          if numberAccepted (digitVals ip) (fracDigitVals fp) (expPartOf ep) then
            some (Json.num ('-' :: (ip ++ fp ++ ep)), r3)
          else none
  | _ =>
    match parseIntPart s with
    | none => none
    | some (ip, r1) =>
      match parseFrac r1 with
      | none => none
      | some (fp, r2) =>
        match parseExp r2 with
        | none => none
        | some (ep, r3) =>
          if numberAccepted (digitVals ip) (fracDigitVals fp) (expPartOf ep) then
            some (Json.num (ip ++ fp ++ ep), r3)
          else none

/-- The pending work items of the recursive-descent parser: a value, the
members of an object after its opening brace, or the elements of an
array after its opening bracket. -/
inductive PTask where
  | value (depth : Nat) (s : List Char)
  | members (depth : Nat) (s : List Char) (acc : List (List Char × Json))
  | elements (depth : Nat) (s : List Char) (acc : List Json)

/-- One fuel-indexed parsing engine for JSON values, object members and
array elements.  `depth` counts serde_json's `remaining_depth` (starting
at 128); entering a container with `depth ≤ 1` fails, reproducing the
recursion limit. -/
def parseRun : Nat → PTask → Option (Json × List Char)
  | 0, _ => none
  | fuel + 1, PTask.value d s =>
    match skipWs s with
    | [] => none
    | 'n' :: 'u' :: 'l' :: 'l' :: rest => some (Json.null, rest)
    | 't' :: 'r' :: 'u' :: 'e' :: rest => some (Json.bool true, rest)
    | 'f' :: 'a' :: 'l' :: 's' :: 'e' :: rest => some (Json.bool false, rest)
    | '"' :: rest =>
      match parseStringRest rest with
      | some (cs, r) => some (Json.str cs, r)
      | none => none
    | '{' :: rest =>
      if d ≤ 1 then none
      else
        match skipWs rest with
        | '}' :: r2 => some (Json.obj [], r2)
        | r => parseRun fuel (PTask.members (d - 1) r [])
    | '[' :: rest =>
      if d ≤ 1 then none
      else
        match skipWs rest with
        | ']' :: r2 => some (Json.arr [], r2)
        | r => parseRun fuel (PTask.elements (d - 1) r [])
    | c :: rest => parseNumber (c :: rest)
  | fuel + 1, PTask.members d s acc =>
    match skipWs s with
    | '"' :: r0 =>
      match parseStringRest r0 with
      | none => none
      | some (key, r1) =>
        match skipWs r1 with
        | ':' :: r2 =>
          match parseRun fuel (PTask.value d r2) with
          | none => none
          | some (v, r3) =>
            match skipWs r3 with
            | ',' :: r4 => parseRun fuel (PTask.members d r4 (acc ++ [(key, v)]))
            | '}' :: r4 => some (Json.obj (acc ++ [(key, v)]), r4)
            | _ => none
        | _ => none
    | _ => none
  | fuel + 1, PTask.elements d s acc =>
    match parseRun fuel (PTask.value d s) with
    | none => none
    | some (v, r) =>
      match skipWs r with
      | ',' :: r2 => parseRun fuel (PTask.elements d r2 (acc ++ [v]))
      | ']' :: r2 => some (Json.arr (acc ++ [v]), r2)
      | _ => none

/-- Model of `serde_json::from_str::<serde_json::Value>`: parse one value
with the recursion limit of 128, then require that only whitespace
follows.  The fuel `4 * length + 8` dominates the parser's fuel use,
which consumes at least one input character for every two fuel steps. -/
def parseJson (s : List Char) : Option Json :=
  match parseRun (4 * s.length + 8) (PTask.value 128 s) with
  | some (j, rest) => if (skipWs rest).isEmpty then some j else none
  | none => none

/-- Last binding of `key` in an object's field list (serde_json inserts
duplicate keys into a map, so the last occurrence wins). -/
def lookupLast : List (List Char × Json) → List Char → Option Json
  | [], _ => none
  | kv :: rest, key =>
    match lookupLast rest key with
    | some r => some r
    | none => if kv.1 = key then some kv.2 else none

/-- Model of `serde_json::Value::get(key)` for a string key: defined only
on objects. -/
def jsonGet : Json → List Char → Option Json
  | Json.obj fields, key => lookupLast fields key
  | _, _ => none

/-- Model of `std::str::from_utf8`: decode a byte list as UTF-8,
rejecting overlong encodings, surrogate code points, code points above
0x10FFFF, and stray or missing continuation bytes. -/
def utf8Decode : List Nat → Option (List Char)
  | [] => some []
  | b0 :: rest =>
    if b0 < 0x80 then
      (utf8Decode rest).map fun cs => Char.ofNat b0 :: cs
    else if b0 < 0xC0 then none
    else if b0 < 0xE0 then
      match rest with
      | b1 :: rest1 =>
        if 0x80 ≤ b1 ∧ b1 < 0xC0 then
          if 0x80 ≤ (b0 - 0xC0) * 0x40 + (b1 - 0x80) then
            (utf8Decode rest1).map fun cs =>
              Char.ofNat ((b0 - 0xC0) * 0x40 + (b1 - 0x80)) :: cs
          else none
        else none
      | [] => none
    else if b0 < 0xF0 then
      match rest with
      | b1 :: b2 :: rest2 =>
        if (0x80 ≤ b1 ∧ b1 < 0xC0) ∧ (0x80 ≤ b2 ∧ b2 < 0xC0) then
          if 0x800 ≤ (b0 - 0xE0) * 0x1000 + (b1 - 0x80) * 0x40 + (b2 - 0x80) ∧
              ¬(0xD800 ≤ (b0 - 0xE0) * 0x1000 + (b1 - 0x80) * 0x40 + (b2 - 0x80) ∧
                (b0 - 0xE0) * 0x1000 + (b1 - 0x80) * 0x40 + (b2 - 0x80) ≤ 0xDFFF) then
            (utf8Decode rest2).map fun cs =>
              Char.ofNat ((b0 - 0xE0) * 0x1000 + (b1 - 0x80) * 0x40 + (b2 - 0x80)) :: cs
          else none
        else none
      | _ => none
    else if b0 < 0xF8 then
      match rest with
      | b1 :: b2 :: b3 :: rest3 =>
        if (0x80 ≤ b1 ∧ b1 < 0xC0) ∧ (0x80 ≤ b2 ∧ b2 < 0xC0) ∧ (0x80 ≤ b3 ∧ b3 < 0xC0) then
          if 0x10000 ≤ (b0 - 0xF0) * 0x40000 + (b1 - 0x80) * 0x1000 + (b2 - 0x80) * 0x40 + (b3 - 0x80) ∧
              (b0 - 0xF0) * 0x40000 + (b1 - 0x80) * 0x1000 + (b2 - 0x80) * 0x40 + (b3 - 0x80) ≤ 0x10FFFF then
            (utf8Decode rest3).map fun cs =>
              Char.ofNat ((b0 - 0xF0) * 0x40000 + (b1 - 0x80) * 0x1000 + (b2 - 0x80) * 0x40 + (b3 - 0x80)) :: cs
          else none
        else none
      | _ => none
    else none

/-- Haystack starts with needle. -/
def startsWithChars : List Char → List Char → Bool
  | _, [] => true
  | [], _ :: _ => false
  | h :: hs, n :: ns => h == n && startsWithChars hs ns

/-- Model of Rust `str::contains` for a string needle. -/
def containsSub (hay needle : List Char) : Bool :=
  if startsWithChars hay needle then true
  else
    match hay with
    | [] => false
    | _ :: t => containsSub t needle

/-- The key of the config flag. -/
def debugKey : List Char := ("debug").data

/-- `FilterConfig` from the source: a single `debug` flag with
`#[serde(default)]`. -/
structure FilterConfig where
  debug : Bool
deriving DecidableEq, Repr

/-- Scan an object's fields the way serde's derived `Deserialize` for
`FilterConfig` does: unknown fields are ignored, a duplicate `debug`
field is an error, a non-boolean `debug` value is an error; the result
records whether `debug` was seen. -/
def readDebugField : List (List Char × Json) → Option Bool → Option (Option Bool)
  | [], found => some found
  | kv :: rest, found =>
    if kv.1 = debugKey then
      match found, kv.2 with
      | some _, _ => none
      | none, Json.bool b => readDebugField rest (some b)
      | none, _ => none
    else readDebugField rest found

/-- Model of `serde_json::from_str::<FilterConfig>`.  serde_json's
`deserialize_struct` accepts a map, whose fields are read by name
(`readDebugField`), or a sequence, whose elements are matched to the
struct's fields positionally (`visit_seq`): an empty array leaves
`debug` to its `#[serde(default)]`, a one-element array must hold the
boolean `debug` value, and any further element is rejected when the
deserializer checks for the closing bracket.  Any other document is an
error; `debug` defaults to `false` when absent. -/
def FilterConfig.fromJsonStr (s : String) : Option FilterConfig :=
  match parseJson s.data with
  | some (Json.obj fields) =>
    match readDebugField fields none with
    | some (some b) => some { debug := b }
    | some none => some { debug := false }
    | none => none
  | some (Json.arr []) => some { debug := false }
  | some (Json.arr [Json.bool b]) => some { debug := b }
  | _ => none

/-- Model of Rust `str::trim`: drop whitespace from both ends. -/
def rustTrim (s : List Char) : List Char :=
  ((s.dropWhile Char.isWhitespace).reverse.dropWhile Char.isWhitespace).reverse

/-- `FilterConfig::new` from the source: empty (after trim) input gives
the default config, and any deserialization failure is swallowed by
`unwrap_or_else`, also giving the default config. -/
def FilterConfig.new (filter_config : String) : FilterConfig :=
  if (rustTrim filter_config.data).isEmpty then { debug := false }
  else
    match FilterConfig.fromJsonStr filter_config with
    | some c => c
    | none => { debug := false }

/-- `Filter` from the source: a fieldless struct, so a per-request filter
instance carries no state. -/
structure Filter where
deriving DecidableEq

/-- `Filter::new` from the source. -/
def Filter.new : Filter := {}

/-- Return status of `on_request_headers`
(`envoy_dynamic_module_type_on_http_filter_request_headers_status`). -/
inductive HeaderStatus where
  | Continue
  | StopIteration
deriving DecidableEq, Repr

/-- Return status of `on_request_body`
(`envoy_dynamic_module_type_on_http_filter_request_body_status`). -/
inductive BodyStatus where
  | Continue
  | StopIterationAndBuffer
deriving DecidableEq, Repr

/-- Host-visible side effects the filter can perform on the request. -/
inductive HostAction where
  | setRequestHeader (name : String) (value : String)
  | clearRouteCache
deriving DecidableEq, Repr

/-- The needle of the fast containment check, `"\"method\""`. -/
def methodNeedle : List Char := ("\"method\"").data

/-- The needle of the route rule, `"echo2"`. -/
def echo2Needle : List Char := ("echo2").data

/-- The body-accumulation loop of `on_request_body`: starting from an
empty `body_data`, `extend_from_slice` each buffered chunk in order. -/
def assembleBody (body_buffers : List (List Nat)) : List Nat :=
  body_buffers.foldl (fun body_data buffer => body_data ++ buffer) []

/-- The route decision of the `end_of_stream` branch of
`on_request_body` (source lines 82–106): `route_to` starts as `"echo1"`
and becomes `"echo2"` exactly when the buffered body is nonempty, is
valid UTF-8, contains the literal substring `"method"`, parses as JSON,
and its `method` field is a string containing `"echo2"`.
`body_buffers` is what `get_request_body()` returned (`none` when the
host has no buffered body). -/
def routeFor (body_buffers : Option (List (List Nat))) : String :=
  match body_buffers with
  | none => "echo1"
  | some bufs =>
    if (assembleBody bufs).isEmpty then "echo1"
    else
      match utf8Decode (assembleBody bufs) with
      | none => "echo1"
      | some body_str =>
        if containsSub body_str methodNeedle then
          match parseJson body_str with
          | some json_value =>
            match jsonGet json_value (("method").data) with
            | some (Json.str m) => if containsSub m echo2Needle then "echo2" else "echo1"
            | _ => "echo1"
          | none => "echo1"
        else "echo1"

/-- `Filter::on_request_headers` from the source: pause (StopIteration)
unless the stream already ended at the headers.  `&mut self` is modelled
by returning the (unchanged) filter. -/
def Filter.on_request_headers (self : Filter) (end_of_stream : Bool) :
    Filter × HeaderStatus :=
  if !end_of_stream then (self, HeaderStatus.StopIteration)
  else (self, HeaderStatus.Continue)

/-- `Filter::on_request_body` from the source: buffer until the final
chunk; on the final chunk compute the route, set the `x-route-to`
header, then clear the route cache, and resume. -/
def Filter.on_request_body (self : Filter) (body_buffers : Option (List (List Nat)))
    (end_of_stream : Bool) : Filter × BodyStatus × List HostAction :=
  if !end_of_stream then (self, BodyStatus.StopIterationAndBuffer, [])
  else
    (self, BodyStatus.Continue,
      [HostAction.setRequestHeader ("x-route-to") (routeFor body_buffers),
       HostAction.clearRouteCache])

/-- The body events the host delivers for a body arriving in the given
chunks: every chunk but the last is a non-final event
(`end_of_stream = false`), the last is final; each event sees the chunks
buffered so far. -/
def runBodyAux (self : Filter) (delivered : List (List Nat)) :
    List (List Nat) → List (BodyStatus × List HostAction)
  | [] => []
  | [c] =>
    [((self.on_request_body (some (delivered ++ [c])) true).2.1,
      (self.on_request_body (some (delivered ++ [c])) true).2.2)]
  | c :: c2 :: rest =>
    ((self.on_request_body (some (delivered ++ [c])) false).2.1,
     (self.on_request_body (some (delivered ++ [c])) false).2.2) ::
      runBodyAux (self.on_request_body (some (delivered ++ [c])) false).1
        (delivered ++ [c]) (c2 :: rest)

/-- Everything the host observes from the filter over one request. -/
structure Trace where
  headerStatus : HeaderStatus
  bodyCalls : List (BodyStatus × List HostAction)
deriving DecidableEq, Repr

/-- The statuses returned by the body events, in order. -/
def Trace.bodyStatuses (t : Trace) : List BodyStatus :=
  t.bodyCalls.map Prod.fst

/-- All host actions performed over the request, in order. -/
def Trace.actions (t : Trace) : List HostAction :=
  (t.bodyCalls.map Prod.snd).flatten

/-- The host callback sequence for one request: `none` is a request
without a body (end-of-stream on the header event, no body events);
`some chunks` is a request whose body arrives in those chunks. -/
def runRequest : Option (List (List Nat)) → Trace
  | none =>
    { headerStatus := (Filter.new.on_request_headers true).2, bodyCalls := [] }
  | some chunks =>
    { headerStatus := (Filter.new.on_request_headers false).2,
      bodyCalls := runBodyAux Filter.new [] chunks }

/-- Recognizes a `setRequestHeader` action. -/
def isSetHeaderAction : HostAction → Bool
  | HostAction.setRequestHeader _ _ => true
  | _ => false

/-- Recognizes a `clearRouteCache` action. -/
def isClearAction : HostAction → Bool
  | HostAction.clearRouteCache => true
  | _ => false

/-- Modelled from the spec: the host's route table (the Envoy route
configuration is part of the repository but not under `src/`) selects
the upstream named by the `x-route-to` request header once processing
resumes, and routes to the default `"echo1"` when that header was never
set. -/
def hostRouteDecision (actions : List HostAction) : String :=
  match actions.foldl
      (fun acc a =>
        match a with
        | HostAction.setRequestHeader n v => if n = "x-route-to" then some v else acc
        | HostAction.clearRouteCache => acc)
      none with
  | some v => v
  | none => "echo1"

/-- Encode an ASCII string as its bytes (used only for concrete inputs,
all of which are ASCII, where this is the UTF-8 encoding). -/
def asciiBytes (s : String) : List Nat := s.data.map Char.toNat

/-- The body of a request as assembled from what `get_request_body`
returned (`none`, i.e. no buffered body, assembles to the empty body). -/
def assembledOf : Option (List (List Nat)) → List Nat
  | none => []
  | some bufs => assembleBody bufs

/-- The class of bodies singled out by the specification: bodies that
are valid UTF-8 text parsing as a JSON document whose `method` field is
a string containing `"echo2"` as a substring. -/
def specEcho2Body (body : List Nat) : Bool :=
  match utf8Decode body with
  | none => false
  | some s =>
    match parseJson s with
    | none => false
    | some j =>
      match jsonGet j (("method").data) with
      | some (Json.str m) => containsSub m echo2Needle
      | _ => false

/-! ## Helper lemmas -/

/-- A non-final body event returns `StopIterationAndBuffer` and performs
no host action, and leaves the filter unchanged. -/
theorem on_request_body_nonfinal (self : Filter) (b : Option (List (List Nat))) :
    self.on_request_body b false =
      (self, BodyStatus.StopIterationAndBuffer, []) := rfl

/-- The final body event returns `Continue` and sets the header before
clearing the route cache. -/
theorem on_request_body_final (self : Filter) (b : Option (List (List Nat))) :
    self.on_request_body b true =
      (self, BodyStatus.Continue,
        [HostAction.setRequestHeader ("x-route-to") (routeFor b),
         HostAction.clearRouteCache]) := rfl

/-- Characterization of the body-event sequence: every chunk but the
last yields `(StopIterationAndBuffer, no actions)`, and the last yields
`Continue` together with the header write followed by the cache clear,
computed over all delivered chunks. -/
theorem runBodyAux_spec (chunks : List (List Nat)) :
    ∀ (self : Filter) (delivered : List (List Nat)), chunks ≠ [] →
      runBodyAux self delivered chunks =
        List.replicate (chunks.length - 1) (BodyStatus.StopIterationAndBuffer, ([] : List HostAction)) ++
          [(BodyStatus.Continue,
            [HostAction.setRequestHeader ("x-route-to") (routeFor (some (delivered ++ chunks))),
             HostAction.clearRouteCache])] := by
  induction chunks with
  | nil => intro _ _ h; exact absurd rfl h
  | cons c rest ih =>
    intro self delivered _
    cases rest with
    | nil => simp [runBodyAux, on_request_body_final]
    | cons c2 rest2 =>
      rw [runBodyAux]
      rw [ih self (delivered ++ [c]) (by simp)]
      simp [on_request_body_nonfinal, List.replicate_succ]

/-- The route value is always one of the two route identifiers. -/
theorem routeFor_cases (b : Option (List (List Nat))) :
    routeFor b = "echo1" ∨ routeFor b = "echo2" := by
  unfold routeFor
  cases b with
  | none => exact Or.inl rfl
  | some bufs =>
    repeat' split
    all_goals first | exact Or.inl rfl | exact Or.inr rfl

/-- Flattening a list of empty lists gives the empty list. -/
theorem flatten_replicate_nil {α : Type} (k : Nat) :
    (List.replicate k ([] : List α)).flatten = [] := by
  induction k with
  | zero => rfl
  | succ n ih => simp [List.replicate_succ, ih]

/-- The actions of a request with a body are exactly the header write
followed by the cache clear, both from the final body event. -/
theorem runRequest_actions (chunks : List (List Nat)) (h : chunks ≠ []) :
    (runRequest (some chunks)).actions =
      [HostAction.setRequestHeader ("x-route-to") (routeFor (some chunks)),
       HostAction.clearRouteCache] := by
  show ((runBodyAux Filter.new [] chunks).map Prod.snd).flatten = _
  rw [runBodyAux_spec chunks Filter.new [] h]
  simp [flatten_replicate_nil]

/-- The accumulation loop concatenates: folding append over the chunks
starting from `acc` yields `acc` followed by the flattened chunks. -/
theorem foldl_append_eq_flatten (l : List (List Nat)) :
    ∀ acc : List Nat, l.foldl (fun a b => a ++ b) acc = acc ++ l.flatten := by
  induction l with
  | nil => intro acc; simp
  | cons x xs ih => intro acc; simp [List.foldl, ih (acc ++ x)]

/-! ## Claim C1 -/

/-- A valid JSON body whose `method` key is written with the escape
`\u006d` for the letter `m`: it parses to an object whose `method` field
is the string `"echo2"`, but its text does not contain the literal
substring `"method"`. -/
def c1CexBody : List Nat := asciiBytes ("\x7b\"\\u006dethod\": \"echo2\"\x7d")

/-- Claim C1, counterexample: this body is a valid JSON document with a
string-typed `method` field whose value contains `"echo2"`, yet the
final `on_request_body` invocation sets `x-route-to` to `"echo1"`,
because the fast containment check for the literal token `"method"`
fails on the escaped key and the JSON parse is skipped. -/
theorem c1_counterexample :
    specEcho2Body c1CexBody = true ∧
    (Filter.new.on_request_body (some [c1CexBody]) true).2.2 =
      [HostAction.setRequestHeader ("x-route-to") ("echo1"),
       HostAction.clearRouteCache] := by
  constructor
  · decide
  · decide

/-- Claim C1 (amended): for every request whose fully assembled body is
valid UTF-8 text that contains the literal substring `"method"` and
parses as a JSON document with a string-typed `method` field whose value
contains `"echo2"`, the final `on_request_body` invocation sets the
request header `x-route-to` to `"echo2"`. -/
theorem c1_amended (chunks : List (List Nat)) (s : List Char) (j : Json) (m : List Char)
    (h1 : utf8Decode (assembleBody chunks) = some s)
    (h2 : containsSub s methodNeedle = true)
    (h3 : parseJson s = some j)
    (h4 : jsonGet j (("method").data) = some (Json.str m))
    (h5 : containsSub m echo2Needle = true) :
    (Filter.new.on_request_body (some chunks) true).2.2 =
      [HostAction.setRequestHeader ("x-route-to") ("echo2"),
       HostAction.clearRouteCache] := by
  have hne : (assembleBody chunks).isEmpty = false := by
    cases hl : assembleBody chunks with
    | nil =>
      rw [hl] at h1
      have h1' : some ([] : List Char) = some s := h1
      rw [(Option.some.inj h1').symm] at h3
      have hnone : parseJson ([] : List Char) = none := rfl
      rw [hnone] at h3
      exact Option.noConfusion h3
    | cons a t => rfl
  have hroute : routeFor (some chunks) = "echo2" := by
    simp [routeFor, hne, h1, h2, h3, h4, h5]
  rw [on_request_body_final, hroute]

/-- Claim C1 (amended), witness at the one-chunk body
`{"method": "echo2"}`. -/
theorem c1_amended_witness :
    (Filter.new.on_request_body (some [asciiBytes ("\x7b\"method\": \"echo2\"\x7d")]) true).2.2 =
      [HostAction.setRequestHeader ("x-route-to") ("echo2"),
       HostAction.clearRouteCache] :=
  c1_amended [asciiBytes ("\x7b\"method\": \"echo2\"\x7d")]
    (("\x7b\"method\": \"echo2\"\x7d").data)
    (Json.obj [((("method").data), Json.str (("echo2").data))])
    (("echo2").data) rfl rfl rfl rfl rfl

/-! ## Claim C2 -/

/-- Claim C2: for every request whose fully assembled body is anything
other than a valid JSON document with a string-typed `method` field
containing `"echo2"` (missing field, non-`echo2` value, malformed JSON,
empty body, bytes that are not valid UTF-8, or no buffered body at
all), the final `on_request_body` invocation sets `x-route-to` to
`"echo1"`. -/
theorem c2_default_route (body_buffers : Option (List (List Nat)))
    (h : specEcho2Body (assembledOf body_buffers) = false) :
    (Filter.new.on_request_body body_buffers true).2.2 =
      [HostAction.setRequestHeader ("x-route-to") ("echo1"),
       HostAction.clearRouteCache] := by
  have hroute : routeFor body_buffers = "echo1" := by
    cases body_buffers with
    | none => rfl
    | some bufs =>
      simp only [assembledOf] at h
      cases hE : (assembleBody bufs).isEmpty with
      | true => simp [routeFor, hE]
      | false =>
        cases hu : utf8Decode (assembleBody bufs) with
        | none => simp [routeFor, hE, hu]
        | some body_str =>
          cases hc : containsSub body_str methodNeedle with
          | false => simp [routeFor, hE, hu, hc]
          | true =>
            cases hp : parseJson body_str with
            | none => simp [routeFor, hE, hu, hc, hp]
            | some j =>
              cases hg : jsonGet j (("method").data) with
              | none => simp [routeFor, hE, hu, hc, hp, hg]
              | some v =>
                cases v with
                | str m =>
                  cases he : containsSub m echo2Needle with
                  | false => simp [routeFor, hE, hu, hc, hp, hg, he]
                  | true =>
                    have ht : specEcho2Body (assembleBody bufs) = true := by
                      simp [specEcho2Body, hu, hp, hg, he]
                    rw [ht] at h
                    exact Bool.noConfusion h
                | null => simp [routeFor, hE, hu, hc, hp, hg]
                | bool b => simp [routeFor, hE, hu, hc, hp, hg]
                | num l => simp [routeFor, hE, hu, hc, hp, hg]
                | arr xs => simp [routeFor, hE, hu, hc, hp, hg]
                | obj fs => simp [routeFor, hE, hu, hc, hp, hg]
  rw [on_request_body_final, hroute]

/-- Claim C2, witness at the one-chunk body
`{"method":"echo2","x":1e999}`: the float literal overflows an `f64`,
so the parse fails with `NumberOutOfRange`, the body falls outside the
echo2 class, and the route is the default. -/
theorem c2_default_route_witness :
    specEcho2Body
      (assembledOf (some [asciiBytes ("\x7b\"method\":\"echo2\",\"x\":1e999\x7d")])) = false ∧
    (Filter.new.on_request_body
        (some [asciiBytes ("\x7b\"method\":\"echo2\",\"x\":1e999\x7d")]) true).2.2 =
      [HostAction.setRequestHeader ("x-route-to") ("echo1"),
       HostAction.clearRouteCache] :=
  ⟨by decide,
    c2_default_route (some [asciiBytes ("\x7b\"method\":\"echo2\",\"x\":1e999\x7d")])
      (by decide)⟩

/-! ## Claim C3 -/

/-- Claim C3, counterexample: for a request without a body (end of
stream already on the header event) the filter performs no host action
at all, so `x-route-to` is not set even once. -/
theorem c3_counterexample :
    (runRequest none).actions = [] ∧
    ((runRequest none).actions.filter isSetHeaderAction).length ≠ 1 :=
  ⟨rfl, by decide⟩

/-- Claim C3 (amended): for every request with a body (at least one body
chunk), by the time the filter signals completion the only header write
of the whole request is a single write of `x-route-to`, whose value is
either `"echo1"` or `"echo2"`. -/
theorem c3_amended (chunks : List (List Nat)) (h : chunks ≠ []) :
    (runRequest (some chunks)).actions.filter isSetHeaderAction =
      [HostAction.setRequestHeader ("x-route-to") (routeFor (some chunks))] ∧
    (routeFor (some chunks) = "echo1" ∨ routeFor (some chunks) = "echo2") := by
  constructor
  · rw [runRequest_actions chunks h]
    rfl
  · exact routeFor_cases (some chunks)

/-- Claim C3 (amended), witness at a one-chunk body. -/
theorem c3_amended_witness :
    ([asciiBytes ("ping")] ≠ ([] : List (List Nat))) ∧
    ((runRequest (some [asciiBytes ("ping")])).actions.filter isSetHeaderAction =
      [HostAction.setRequestHeader ("x-route-to") (routeFor (some [asciiBytes ("ping")]))] ∧
     (routeFor (some [asciiBytes ("ping")]) = "echo1" ∨
      routeFor (some [asciiBytes ("ping")]) = "echo2")) :=
  ⟨by decide, c3_amended [asciiBytes ("ping")] (by decide)⟩

/-! ## Claim C4 -/

/-- Claim C4: for a request whose header event arrives with end of
stream set (no body follows), `on_request_headers` returns `Continue`
(no pause), there are no body events, and the routing decision of the
(spec-modelled) host route table is the default route `"echo1"`. -/
theorem c4_no_body_default :
    (Filter.new.on_request_headers true).2 = HeaderStatus.Continue ∧
    (runRequest none).headerStatus = HeaderStatus.Continue ∧
    (runRequest none).bodyCalls = [] ∧
    hostRouteDecision ((runRequest none).actions) = "echo1" :=
  ⟨rfl, rfl, rfl, rfl⟩

/-! ## Claim C5 -/

/-- Claim C5: for every request with a body, the header event (end of
stream false) returns `StopIteration`, every non-final body chunk
returns `StopIterationAndBuffer`, and exactly the final chunk returns
`Continue`. -/
theorem c5_pause_invariant (chunks : List (List Nat)) (h : chunks ≠ []) :
    (runRequest (some chunks)).headerStatus = HeaderStatus.StopIteration ∧
    (runRequest (some chunks)).bodyStatuses =
      List.replicate (chunks.length - 1) BodyStatus.StopIterationAndBuffer ++
        [BodyStatus.Continue] := by
  constructor
  · rfl
  · show (runBodyAux Filter.new [] chunks).map Prod.fst = _
    rw [runBodyAux_spec chunks Filter.new [] h]
    simp

/-- Claim C5, witness at a two-chunk body. -/
theorem c5_pause_invariant_witness :
    ([[104], [105]] ≠ ([] : List (List Nat))) ∧
    ((runRequest (some [[104], [105]])).headerStatus = HeaderStatus.StopIteration ∧
     (runRequest (some [[104], [105]])).bodyStatuses =
       List.replicate 1 BodyStatus.StopIterationAndBuffer ++ [BodyStatus.Continue]) :=
  ⟨by decide, c5_pause_invariant [[104], [105]] (by decide)⟩

/-! ## Claim C6 -/

/-- Claim C6, counterexample: for a request without a body,
`clear_route_cache` is never called, so it is not called exactly once
for every request. -/
theorem c6_counterexample :
    ((runRequest none).actions.filter isClearAction).length = 0 ∧
    ((runRequest none).actions.filter isClearAction).length ≠ 1 :=
  ⟨rfl, by decide⟩

/-- Claim C6 (amended): for every request with a body, the whole
request's host actions are exactly the `x-route-to` header write
followed by the `clear_route_cache` call — so the cache is invalidated
exactly once, strictly after the header write — and every non-final
body event performs no host action, so the invalidation happens only on
the final chunk. -/
theorem c6_amended (chunks : List (List Nat)) (h : chunks ≠ []) :
    (runRequest (some chunks)).actions =
      [HostAction.setRequestHeader ("x-route-to") (routeFor (some chunks)),
       HostAction.clearRouteCache] ∧
    ∀ call ∈ (runRequest (some chunks)).bodyCalls.dropLast, call.2 = [] := by
  refine ⟨runRequest_actions chunks h, ?_⟩
  intro call hc
  have hdl : (runRequest (some chunks)).bodyCalls.dropLast =
      List.replicate (chunks.length - 1)
        (BodyStatus.StopIterationAndBuffer, ([] : List HostAction)) := by
    show (runBodyAux Filter.new [] chunks).dropLast = _
    rw [runBodyAux_spec chunks Filter.new [] h]
    exact List.dropLast_concat
  rw [hdl] at hc
  rw [List.eq_of_mem_replicate hc]

/-- Claim C6 (amended), witness at a two-chunk body. -/
theorem c6_amended_witness :
    ([[97], [98]] ≠ ([] : List (List Nat))) ∧
    ((runRequest (some [[97], [98]])).actions =
      [HostAction.setRequestHeader ("x-route-to") (routeFor (some [[97], [98]])),
       HostAction.clearRouteCache] ∧
     ∀ call ∈ (runRequest (some [[97], [98]])).bodyCalls.dropLast, call.2 = []) :=
  ⟨by decide, c6_amended [[97], [98]] (by decide)⟩

/-! ## Claim C7 -/

/-- Claim C7: for every body delivered as `n ≥ 1` chunks, the final body
event receives all the chunks in delivery order, and the accumulation
loop assembles them into exactly their concatenation. -/
theorem c7_buffer_concat (chunks : List (List Nat)) (h : chunks ≠ []) :
    assembleBody chunks = chunks.flatten ∧
    (runRequest (some chunks)).bodyCalls.getLast? =
      some ((Filter.new.on_request_body (some chunks) true).2.1,
            (Filter.new.on_request_body (some chunks) true).2.2) := by
  constructor
  · simpa using foldl_append_eq_flatten chunks []
  · show (runBodyAux Filter.new [] chunks).getLast? = _
    rw [runBodyAux_spec chunks Filter.new [] h]
    rw [List.getLast?_concat]
    simp [on_request_body_final]

/-- Claim C7, witness at a three-chunk body. -/
theorem c7_buffer_concat_witness :
    ([[1], [2, 3], [4]] ≠ ([] : List (List Nat))) ∧
    (assembleBody [[1], [2, 3], [4]] = [[1], [2, 3], [4]].flatten ∧
     (runRequest (some [[1], [2, 3], [4]])).bodyCalls.getLast? =
       some ((Filter.new.on_request_body (some [[1], [2, 3], [4]]) true).2.1,
             (Filter.new.on_request_body (some [[1], [2, 3], [4]]) true).2.2)) :=
  ⟨by decide, c7_buffer_concat [[1], [2, 3], [4]] (by decide)⟩

/-! ## Claim C8 -/

/-- Claim C8: the decision step is idempotent — `Filter` is a fieldless
struct, `on_request_body` returns it unchanged, and invoking the final
(end-of-stream) body handling twice on the same buffered body yields
the identical result, in particular the same route id, both times. -/
theorem c8_idempotent (f : Filter) (body_buffers : Option (List (List Nat))) :
    ((f.on_request_body body_buffers true).1).on_request_body body_buffers true =
      f.on_request_body body_buffers true ∧
    (f.on_request_body body_buffers true).1 = f :=
  ⟨rfl, rfl⟩

/-! ## Claim C9 -/

/-- Claim C9: `FilterConfig::new` never raises an error: the empty
string and any string that fails to deserialize yield the default
`debug = false`, and `{"debug": true}` yields `debug = true`. -/
theorem c9_config_fallback :
    FilterConfig.new ("") = { debug := false } ∧
    FilterConfig.new ("not json") = { debug := false } ∧
    FilterConfig.new ("\x7b\"debug\": true\x7d") = { debug := true } ∧
    ∀ s : String, FilterConfig.fromJsonStr s = none →
      FilterConfig.new s = { debug := false } := by
  refine ⟨by decide, by decide, by decide, ?_⟩
  intro s hfail
  unfold FilterConfig.new
  split
  · rfl
  · rw [hfail]

set_option maxRecDepth 8000 in
/-- Claim C9, witness of the general fallback at a string that parses as
JSON but not as a configuration object. -/
theorem c9_config_fallback_witness :
    FilterConfig.fromJsonStr ("[1, 2]") = none ∧
    FilterConfig.new ("[1, 2]") = { debug := false } :=
  ⟨by decide, c9_config_fallback.2.2.2 ("[1, 2]") (by decide)⟩

/-! ## Claim C10 -/

/-- Scanning fields none of which is named `debug` reports the field as
absent rather than failing. -/
theorem readDebugField_no_key (fields : List (List Char × Json))
    (h : ∀ kv ∈ fields, kv.1 ≠ debugKey) :
    readDebugField fields none = some none := by
  induction fields with
  | nil => rfl
  | cons kv rest ih =>
    have hk : kv.1 ≠ debugKey := h kv (List.mem_cons_self kv rest)
    simp only [readDebugField, hk, if_false]
    exact ih fun x hx => h x (List.mem_cons_of_mem kv hx)

/-- Claim C10: for every configuration string that is a valid JSON
object without a `debug` key, deserialization succeeds with the default
`debug = false` (the missing key is not an error), and so does
`FilterConfig::new`. -/
theorem c10_missing_debug (s : String) (fields : List (List Char × Json))
    (hp : parseJson s.data = some (Json.obj fields))
    (hk : ∀ kv ∈ fields, kv.1 ≠ debugKey) :
    FilterConfig.fromJsonStr s = some { debug := false } ∧
    FilterConfig.new s = { debug := false } := by
  have hfrom : FilterConfig.fromJsonStr s = some { debug := false } := by
    simp only [FilterConfig.fromJsonStr, hp, readDebugField_no_key fields hk]
  refine ⟨hfrom, ?_⟩
  unfold FilterConfig.new
  split
  · rfl
  · rw [hfrom]

/-- Claim C10, witness at the empty object. -/
theorem c10_missing_debug_witness :
    FilterConfig.fromJsonStr ("\x7b\x7d") = some { debug := false } ∧
    FilterConfig.new ("\x7b\x7d") = { debug := false } :=
  c10_missing_debug ("\x7b\x7d") [] rfl (by simp)

end BodyRouting
